import Mathlib

/-!
Verification of the vim-methodstub declaration-to-stub synthesis engine.

The development shallowly embeds the two Python modules
`plugin/python/methodstub.py` and `plugin/methodstub/accessor.py`.
The clang AST is modelled as a finite list of cursor records (`Node`)
addressed by index, with semantic/lexical parent links, canonical-identity
ids, children lists and raw token streams; traversals are fuel-bounded
depth-first walks mirroring `iterate_cursor` and the three `Traverser`
subclasses.  Pure string helpers are translated function by function.
Python-specific semantics that matter for the proofs (truthiness of `0`,
`None` and of an uncalled bound method; `str.title`; `str.split`) are
embedded explicitly and documented at their definitions.
-/

/-- Cursor kinds used by the plugin (clang `CursorKind` members that the
code inspects, plus a catch-all). -/
inductive CKind where
  | functionDecl
  | functionTemplate
  | cxxMethod
  | constructor
  | destructor
  | fieldDecl
  | namespaceDecl
  | classDecl
  | classTemplate
  | parmDecl
  | templateTypeParameter
  | translationUnit
  | other
deriving DecidableEq

/-- One AST cursor: the attributes of `clang.cindex.Cursor` consumed by the
plugin.  Parents and children are indices into `Ast.nodes`; `canonical` is
the canonical-identity id (two cursors denote the same entity iff their
`canonical` ids are equal); `loc_file = none` models a cursor whose
`location.file` is `None`. -/
structure Node where
  kind : CKind := CKind.other
  spelling : String := ""
  displayname : String := ""
  canonical : Nat := 0
  loc_file : Option String := none
  loc_line : Nat := 0
  extent_start_line : Nat := 0
  extent_end_line : Nat := 0
  semantic_parent : Option Nat := none
  lexical_parent : Option Nat := none
  children : List Nat := []
  tokens : List String := []
  type_spelling : String := ""
  result_type_spelling : String := ""
deriving DecidableEq

instance : Inhabited Node := ⟨{}⟩

/-- A parsed translation unit: the cursor store plus the root cursor's index
(`tu.cursor` in the source). -/
structure Ast where
  nodes : List Node
  root : Nat := 0
deriving DecidableEq

/-- Cursor lookup by index. -/
def Ast.node? (a : Ast) (i : Nat) : Option Node := a.nodes[i]?

/-- Total cursor lookup; out-of-range indices (which would raise in Python)
yield the default node. -/
def Ast.nodeD (a : Ast) (i : Nat) : Node := (a.nodes[i]?).getD default

/-- Fuel bound large enough for one depth-first traversal of a tree-shaped
cursor store: one step per node plus one per child reference. -/
def Ast.fuel (a : Ast) : Nat :=
  a.nodes.foldl (fun s n => s + 1 + n.children.length) 1

/-- `FileSet` from the source: the four file roles of one synthesis request.
Fields are `Option String` because the companion-file lookups can return
`None`. -/
structure FileSet where
  source : Option String
  header : Option String
  input : Option String
  output : Option String
deriving DecidableEq

/-- `FileSet.is_input_header`: `self.header == self.input`. -/
def FileSet.is_input_header (f : FileSet) : Bool := f.header == f.input

/-- `FileSet.is_output_header`: `self.header == self.output`. -/
def FileSet.is_output_header (f : FileSet) : Bool := f.header == f.output

/-- `is_cursor_function`: whether the cursor is some sort of function. -/
def is_cursor_function (cursor : Node) : Bool :=
  cursor.kind == CKind.functionDecl ||
    cursor.kind == CKind.functionTemplate ||
    cursor.kind == CKind.cxxMethod ||
    cursor.kind == CKind.destructor ||
    cursor.kind == CKind.constructor

/-- `format_type_name`, inner scan: the Python loop walks index `i` over the
original string and, at the first `i` with `old_name[i]` in `\x7b*, &\x7d` and
`old_name[i-1] = ' '`, deletes the character at `i-1` and breaks; scanning
adjacent pairs is the same search. -/
def format_type_name_go : List Char → List Char
  | [] => []
  | [c] => [c]
  | a :: b :: rest =>
    if a = ' ' ∧ (b = '*' ∨ b = '&') then b :: rest
    else a :: format_type_name_go (b :: rest)

/-- `format_type_name`: reformat a type name to remove the space between the
type and `*` or `&` (the loop breaks after the first removal). -/
def format_type_name (old_name : String) : String :=
  ⟨format_type_name_go old_name.data⟩

/-- First index of a character in a list, from position `i`. -/
def first_idx_of : List Char → Char → Nat → Option Nat
  | [], _, _ => none
  | c :: rest, t, i => if c = t then some i else first_idx_of rest t (i + 1)

/-- The depth scan of `strip_template_args`: starting at the first `<`,
update the depth at each character and stop at the index where depth
returns to 0. -/
def angle_depth_end : List Char → Nat → Int → Option Nat
  | [], _, _ => none
  | c :: rest, i, depth =>
    let depth := if c = '<' then depth + 1 else if c = '>' then depth - 1 else depth
    if depth = 0 then some i else angle_depth_end rest (i + 1) depth

/-- `strip_template_args`: remove the `<...>` suffix clang appends to the
spelling of template functions (depth-aware scan for the matching `>`). -/
def strip_template_args (fn_name : String) : String :=
  let cs := fn_name.data
  match first_idx_of cs '<' 0 with
  | none => fn_name
  | some start =>
    match angle_depth_end (cs.drop start) start 0 with
    | none => fn_name
    | some e => if e > 0 then ⟨cs.take start ++ cs.drop (e + 1)⟩ else fn_name

/-- Python `str.title` on ASCII data: the first letter of each maximal
alphabetic run is uppercased, every later letter of the run is lowercased,
non-letters pass through and end the run. -/
def py_title_go : Bool → List Char → List Char
  | _, [] => []
  | prevAlpha, c :: cs =>
    if c.isAlpha then
      (if prevAlpha then c.toLower else c.toUpper) :: py_title_go true cs
    else
      c :: py_title_go false cs

/-- Python `str.title` (the inputs here are ASCII identifiers). -/
def py_title (s : String) : String := ⟨py_title_go false s.data⟩

/-- Whether `pat` is an initial segment of `l` (character-list version of
Python `find(pat) == 0`). -/
def list_starts_with : List Char → List Char → Bool
  | [], _ => true
  | _ :: _, [] => false
  | a :: as, b :: bs => a = b && list_starts_with as bs

/-- Python `s.find(pre) == 0` (`s` starts with `pre`). -/
def py_starts_with (s pre : String) : Bool := list_starts_with pre.data s.data

/-- Python `s.rfind(suf) == len(s) - len(suf)` for a one-character `suf`
(`s` ends with `suf`). -/
def py_ends_with (s suf : String) : Bool :=
  list_starts_with suf.data.reverse s.data.reverse

/-- Python `str.split` on a one-character separator, keeping empty
fragments; `acc` is the current fragment, reversed. -/
def py_split_go (sep : Char) : List Char → List Char → List (List Char)
  | [], acc => [acc.reverse]
  | c :: rest, acc =>
    if c = sep then acc.reverse :: py_split_go sep rest []
    else py_split_go sep rest (c :: acc)

/-- Python `s.split(sep)` for a one-character separator
(`"".split(sep) = ['']`, empty fragments kept). -/
def py_split (s : String) (sep : Char) : List String :=
  (py_split_go sep s.data []).map fun cs => ⟨cs⟩

/-- `get_method_name_from_field` from `accessor.py`.  `find('m_') == 0` is
`startsWith "m_"`, `find('_') == 0` is `startsWith "_"`, and
`rfind('_') == len - 1` is `endsWith "_"`; on the empty string the Python
trailing-underscore branch fires but still produces `""`, as here.  When no
convention matches, `method_name` keeps its initial value `''`: the original
field name is dropped entirely. -/
def get_method_name_from_field (field_name : String) : String :=
  let method_name :=
    if py_starts_with field_name "m_" then field_name.drop 2
    else if py_starts_with field_name "_" then field_name.drop 1
    else if py_ends_with field_name "_" then field_name.dropRight 1
    else ""
  let method_name := String.join ((py_split method_name '_').map py_title)
  py_title method_name

/-- `AccessorKind` from `accessor.py` (`GETTER = 0`, `SETTER = 1`). -/
inductive AccessorKind where
  | getter
  | setter
deriving DecidableEq

/-- `make_fn_decl` from `accessor.py`: the accessor declaration string for a
field cursor, built on a deque (`appendleft` prepends, `append` appends). -/
def make_fn_decl (field_cursor : Node) (kind : AccessorKind) : String :=
  let type_name := format_type_name field_cursor.type_spelling
  let method_name : List String := [get_method_name_from_field field_cursor.spelling]
  let method_name :=
    match kind with
    | AccessorKind.getter => "get" :: method_name ++ ["() const"]
    | AccessorKind.setter => "set" :: method_name ++ ["(" ++ type_name ++ " value)"]
  let method_name := (type_name ++ " ") :: method_name
  String.join method_name

/-- `find_fn_name_from_line`, inner loop: scan the line right to left with a
balance counter over `()` and `\x7b\x7d`; parentheses set `found_one`; when the
depth is 0 after an update and a parenthesis was seen, answer `i - 1`. -/
def find_fn_name_from_line_go : List Char → Int → Int → Bool → Option Int
  | [], _, _, _ => none
  | c :: rest, i, depth, foundOne =>
    let p : Int × Bool :=
      if c = ')' then (depth + 1, true)
      else if c = '(' then (depth - 1, true)
      else if c = '\x7d' then (depth + 1, foundOne)
      else if c = '\x7b' then (depth - 1, foundOne)
      else (depth, foundOne)
    if p.1 = 0 ∧ p.2 then some (i - 1)
    else find_fn_name_from_line_go rest (i - 1) p.1 p.2

/-- `find_fn_name_from_line`: last character of the function name on the
line, found by matching the rightmost balanced parenthesis group; `none`
when the scan exhausts the line. -/
def find_fn_name_from_line (s : String) : Option Int :=
  find_fn_name_from_line_go s.data.reverse ((s.data.length : Int) - 1) 0 false

/-- Canonical id of a cursor's lexical parent (`cursor.lexical_parent.canonical`).
Real cursors always have a lexical parent; a missing one yields `none`. -/
def Ast.lex_canon (a : Ast) (n : Node) : Option Nat :=
  (n.lexical_parent.bind a.node?).map Node.canonical

/-- Canonical id of a cursor's semantic parent
(`cursor.semantic_parent.canonical`). -/
def Ast.sem_canon (a : Ast) (n : Node) : Option Nat :=
  (n.semantic_parent.bind a.node?).map Node.canonical

/-- The canonical ids of the semantic-parent chain starting at cursor index
`start` (the `while parent is not None` walk in
`NamespaceTraverser._traversal_fn`, applied to `target_fn.semantic_parent`). -/
def sem_ancestor_canonicals (a : Ast) : Nat → Option Nat → List Nat
  | 0, _ => []
  | _, none => []
  | f + 1, some i =>
    match a.node? i with
    | none => []
    | some n => n.canonical :: sem_ancestor_canonicals a f n.semantic_parent

/-- Depth-first walk of `NamespaceTraverser`: preorder over the cursor tree
(`iterate_cursor`), pruning subtrees located in other files, collecting
namespace cursors in the target file whose canonical id occurs on the
target's semantic-ancestor path. -/
def namespace_dfs (a : Ast) (src : Option String) (ancCanons : List Nat) :
    Nat → List Nat → List Nat
  | 0, _ => []
  | _, [] => []
  | f + 1, i :: rest =>
    match a.node? i with
    | none => namespace_dfs a src ancCanons f rest
    | some n =>
      match n.loc_file with
      | none => namespace_dfs a src ancCanons f (n.children ++ rest)
      | some fl =>
        if some fl = src then
          if n.kind = CKind.namespaceDecl ∧ ancCanons.contains n.canonical then
            i :: namespace_dfs a src ancCanons f (n.children ++ rest)
          else
            namespace_dfs a src ancCanons f (n.children ++ rest)
        else
          namespace_dfs a src ancCanons f rest

/-- Depth-first walk of `FollowingFunctionTraverser`: collects function
cursors in the target file sharing the target's lexical parent (by
canonical id) that are visited after the target itself; `found` is the
`_found_fn` flag, consulted before it is updated, exactly as in the
source. -/
def following_dfs (a : Ast) (src : Option String) (targetLexCanon : Option Nat)
    (targetCanon : Nat) : Nat → List Nat → Bool → List Nat
  | 0, _, _ => []
  | _, [], _ => []
  | f + 1, i :: rest, found =>
    match a.node? i with
    | none => following_dfs a src targetLexCanon targetCanon f rest found
    | some n =>
      match n.loc_file with
      | none => following_dfs a src targetLexCanon targetCanon f (n.children ++ rest) found
      | some fl =>
        if some fl = src then
          let collect := is_cursor_function n && (a.lex_canon n == targetLexCanon) && found
          let found := found || (n.canonical == targetCanon)
          let tail := following_dfs a src targetLexCanon targetCanon f (n.children ++ rest) found
          if collect then i :: tail else tail
        else
          following_dfs a src targetLexCanon targetCanon f rest found

/-- Depth-first walk of `DefinitionTraverser`: collects, in visit order,
function cursors in the target file whose lexical parent differs (by
canonical id) from the target declaration's semantic parent — i.e. true
out-of-line or namespace-scope definitions.  The Python dict keyed by
spelling, preserving insertion order per key, is recovered from this flat
list by `get_definition_for_function`'s filter. -/
def definition_dfs (a : Ast) (src : Option String) (targetSemCanon : Option Nat) :
    Nat → List Nat → List Nat
  | 0, _ => []
  | _, [] => []
  | f + 1, i :: rest =>
    match a.node? i with
    | none => definition_dfs a src targetSemCanon f rest
    | some n =>
      match n.loc_file with
      | none => definition_dfs a src targetSemCanon f (n.children ++ rest)
      | some fl =>
        if some fl = src then
          if is_cursor_function n ∧ a.lex_canon n ≠ targetSemCanon then
            i :: definition_dfs a src targetSemCanon f (n.children ++ rest)
          else
            definition_dfs a src targetSemCanon f (n.children ++ rest)
        else
          definition_dfs a src targetSemCanon f rest

/-- `find_defined_functions`: all out-of-line definitions found in `file`,
traversing from the translation-unit root. -/
def find_defined_functions (a : Ast) (file : Option String) (target_fn : Nat) : List Nat :=
  definition_dfs a file (a.sem_canon (a.nodeD target_fn)) a.fuel [a.root]

/-- `get_definition_for_function`: among the collected definitions with the
cursor's spelling, the first whose canonical id matches. -/
def get_definition_for_function (a : Ast) (definitions : List Nat) (cursor : Node) :
    Option Nat :=
  (definitions.filter (fun i => (a.nodeD i).spelling == cursor.spelling)).find?
    (fun i => (a.nodeD i).canonical == cursor.canonical)

/-- `find_closest_function_definition`: first function of `fn_list` that has
a definition in `definitions`. -/
def find_closest_function_definition (a : Ast) (fn_list : List Nat)
    (definitions : List Nat) : Option Nat :=
  fn_list.findSome? (fun i => get_definition_for_function a definitions (a.nodeD i))

/-- The semantic-parent walk of `get_namespaces`, collecting namespace
cursors innermost first (starting at the cursor itself). -/
def get_namespaces_walk (a : Ast) : Nat → Option Nat → List Nat
  | 0, _ => []
  | _, none => []
  | f + 1, some i =>
    match a.node? i with
    | none => []
    | some n =>
      (if n.kind = CKind.namespaceDecl then [i] else []) ++
        get_namespaces_walk a f n.semantic_parent

/-- `get_namespaces`: all namespaces the cursor belongs to, outermost first
(the source reverses the inner walk with `[::-1]`). -/
def get_namespaces (a : Ast) (cursor : Nat) : List Nat :=
  (get_namespaces_walk a a.fuel (some cursor)).reverse

/-- `get_lexical_namespaces`: namespaces enclosing the cursor within
`source_file`, via `NamespaceTraverser` from the root. -/
def get_lexical_namespaces (a : Ast) (cursor : Nat) (source_file : Option String) :
    List Nat :=
  namespace_dfs a source_file
    (sem_ancestor_canonicals a a.fuel (a.nodeD cursor).semantic_parent) a.fuel [a.root]

/-- `get_following_declarations`: function declarations in the same scope
but below `fn_cursor`, via `FollowingFunctionTraverser` rooted at the
cursor's semantic parent. -/
def get_following_declarations (a : Ast) (header_file : Option String) (fn_cursor : Nat) :
    List Nat :=
  let target := a.nodeD fn_cursor
  match target.semantic_parent with
  | none => []
  | some p => following_dfs a header_file (a.lex_canon target) target.canonical a.fuel [p] false

/-- `get_args_list`: comma-joined `"<type> <name>"` for each `PARM_DECL`
child (name omitted when empty), types formatted by `format_type_name`. -/
def get_args_list (a : Ast) (fn_cursor : Node) : String :=
  let args := fn_cursor.children.filterMap (fun i =>
    match a.node? i with
    | none => none
    | some child =>
      if child.kind = CKind.parmDecl then
        some (String.intercalate " "
          (if child.spelling = "" then [format_type_name child.type_spelling]
           else [format_type_name child.type_spelling, child.spelling]))
      else none)
  String.intercalate ", " args

/-- `get_template_args`: spellings of the `TEMPLATE_TYPE_PARAMETER`
children, in order. -/
def get_template_args (a : Ast) (cursor : Node) : List String :=
  cursor.children.filterMap (fun i =>
    match a.node? i with
    | none => none
    | some child =>
      if child.kind = CKind.templateTypeParameter then some child.spelling else none)

/-- `get_template_declaration`: `template<typename ` + `', typename'`-joined
argument names + `>`, or `None` when the cursor has no template
parameters (note the source's separator has no trailing space). -/
def get_template_declaration (a : Ast) (cursor : Node) : Option String :=
  let template_args := get_template_args a cursor
  if template_args.length > 0 then
    some ("template<typename " ++ String.intercalate ", typename" template_args ++ ">")
  else none

/-- The semantic-parent walk of `get_member_class_name`: class spellings
appended while walking outward (so innermost first — the source never
reverses this list, unlike `get_namespaces`). -/
def member_class_walk (a : Ast) : Nat → Option Nat → List String
  | 0, _ => []
  | _, none => []
  | f + 1, some i =>
    match a.node? i with
    | none => []
    | some n =>
      (if n.kind = CKind.classDecl ∨ n.kind = CKind.classTemplate then [n.spelling] else []) ++
        member_class_walk a f n.semantic_parent

/-- `get_member_class_name`: the scope string for the parent class or
classes of the cursor; when the cursor's (innermost) semantic parent is a
template, its argument names are appended in angle brackets. -/
def get_member_class_name (a : Ast) (cursor : Node) : Option String :=
  let name := member_class_walk a a.fuel cursor.semantic_parent
  if name.length > 0 then
    let out_string := String.intercalate "::" name
    let template_args :=
      match cursor.semantic_parent.bind a.node? with
      | some p => get_template_args a p
      | none => []
    if template_args.length > 0 then
      some (out_string ++ "<" ++ String.intercalate ", " template_args ++ ">")
    else some out_string
  else none

/-- The token scan of `add_function_specifiers`: stop at the first `\x7b`,
track parenthesis depth, append `' const'`/`' noexcept'` at depth 0,
prepend (`appendleft`) `'constexpr '` at depth 0.  The header deque is a
list; `appendleft` is `::`, `append` is `++ [x]`. -/
def add_function_specifiers_go (depth : Int) (header : List String) :
    List String → List String
  | [] => header
  | t :: ts =>
    if t = "\x7b" then header
    else if t = "(" then add_function_specifiers_go (depth + 1) header ts
    else if t = ")" then add_function_specifiers_go (depth - 1) header ts
    else if t = "const" ∧ depth = 0 then
      add_function_specifiers_go depth (header ++ [" const"]) ts
    else if t = "noexcept" ∧ depth = 0 then
      add_function_specifiers_go depth (header ++ [" noexcept"]) ts
    else if t = "constexpr" ∧ depth = 0 then
      add_function_specifiers_go depth ("constexpr " :: header) ts
    else add_function_specifiers_go depth header ts

/-- `add_function_specifiers`: find specifier keywords in the cursor's token
stream and add them to the header deque. -/
def add_function_specifiers (fn_cursor : Node) (header : List String) : List String :=
  add_function_specifiers_go 0 header fn_cursor.tokens

/-- `make_function_header`: the out-of-line signature string for the
function at index `fn_cursor`, built on a deque in the source's
construction order. -/
def make_function_header (a : Ast) (fn_cursor : Nat) (inline : Bool)
    (nsResolution : String) : String :=
  let c := a.nodeD fn_cursor
  let args_list := get_args_list a c
  let name := strip_template_args c.spelling
  let return_type := c.result_type_spelling
  let parent := c.semantic_parent.bind a.node?
  -- `get_template_declaration(fn_cursor.semantic_parent)`; real cursors
  -- always have a semantic parent.
  let class_template_decl := match parent with
    | some p => get_template_declaration a p
    | none => none
  let fn_template_decl := get_template_declaration a c
  let fn_header : List String := []
  let fn_header := if nsResolution ≠ "" then fn_header ++ [nsResolution, "::"] else fn_header
  let class_name := get_member_class_name a c
  let fn_header := match class_name with
    | some cn => if cn ≠ "" then fn_header ++ [cn, "::"] else fn_header
    | none => fn_header
  let fn_header := fn_header ++ [name ++ "(" ++ args_list ++ ")"]
  -- Templated constructors may be tagged FUNCTION_TEMPLATE, hence the
  -- extra comparison of the name with the enclosing class's spelling.
  let fn_header :=
    if c.kind ≠ CKind.constructor ∧ c.kind ≠ CKind.destructor ∧
        name ≠ (parent.map Node.spelling).getD "" then
      (format_type_name return_type ++ " ") :: fn_header
    else fn_header
  let fn_header := add_function_specifiers c fn_header
  let fn_header := if inline then "inline " :: fn_header else fn_header
  let fn_header := match fn_template_decl with
    | some t => (t ++ "\n") :: fn_header
    | none => fn_header
  let fn_header := match class_template_decl with
    | some t => (t ++ "\n") :: fn_header
    | none => fn_header
  String.join fn_header

/-- The counting loop of `build_namespace_scope_resolution`: iterate the
lexical chain from the front, breaking when the declaration chain is
exhausted or the canonical ids first mismatch. -/
def lexical_depth_loop : List Node → List Node → Nat
  | _, [] => 0
  | [], _ :: _ => 0
  | n :: ns, l :: ls =>
    if n.canonical = l.canonical then lexical_depth_loop ns ls + 1 else 0

/-- `build_namespace_scope_resolution`: the `::`-joined spellings of the
declaration's namespace chain past the matched depth. -/
def build_namespace_scope_resolution (namespaces lexical_namespaces : List Node) :
    String :=
  let lexical_depth := lexical_depth_loop namespaces lexical_namespaces
  String.intercalate "::" ((namespaces.drop lexical_depth).map Node.spelling)

/-- `get_output_location`: the line at which to insert the definition.
`line` starts at 0; each branch only runs while `line` is still 0, and the
final sentinel is `-1`. -/
def get_output_location (above_def : Option Node) (namespaces : List Node) : Int :=
  let line : Int := 0
  let line : Int :=
    match above_def with
    | some d => (d.extent_start_line : Int) - 1
    | none => line
  let line : Int :=
    if line = 0 then
      match namespaces.getLast? with
      | some inner_namespace => (inner_namespace.extent_end_line : Int) - 1
      | none => line
    else line
  if line = 0 then -1 else line

/-- The error value reported by the duplicate guard: the Python code prints
`'<displayname>' is already defined at <file>:<line>` and returns `None`. -/
structure AlreadyDefinedError where
  displayname : String
  def_file : Option String
  def_line : Nat
deriving DecidableEq

/-- `generate_method_stub`: the synthesis pipeline.  Returns the stub text
and insertion line, or the duplicate-guard error (the source prints the
message and returns `None`; here the message's payload is the error
value). -/
def generate_method_stub (a : Ast) (cursor : Nat) (files : FileSet) (force : Bool) :
    Except AlreadyDefinedError (String × Int) :=
  let c := a.nodeD cursor
  let definitions := find_defined_functions a files.output cursor
  match get_definition_for_function a definitions c, force with
  | some d, false =>
    .error ⟨c.displayname, (a.nodeD d).loc_file, (a.nodeD d).loc_line⟩
  | _, _ =>
    let decl_list := get_following_declarations a files.header cursor
    let next_def := find_closest_function_definition a decl_list definitions
    let namespaces := get_namespaces a cursor
    let lexical_namespaces := get_lexical_namespaces a cursor files.output
    let namespace_str := build_namespace_scope_resolution
      (namespaces.map a.nodeD) (lexical_namespaces.map a.nodeD)
    let inline := files.is_output_header
    let header_string := make_function_header a cursor inline namespace_str
    let line := get_output_location (next_def.map a.nodeD) (lexical_namespaces.map a.nodeD)
    .ok (String.intercalate "\n" [header_string, "\x7b", " ", "\x7d", " "], line)

/-- Whether `needle` occurs as a contiguous substring of `hay`
(Python `hay.find(needle) >= 0`). -/
def list_has_substring (needle : List Char) : List Char → Bool
  | [] => list_starts_with needle []
  | c :: rest => list_starts_with needle (c :: rest) || list_has_substring needle rest

/-- Python `s.find(sub) >= 0`. -/
def str_has_substring (s sub : String) : Bool := list_has_substring sub.data s.data

/-- The `#endif` search of `write_method`: `range(len(buffer) - 1, 1, -1)`
walks the indices from `len - 1` down to 2 and stops at the first line
containing `#endif` (so the last such line of the buffer, ignoring indices
0 and 1). -/
def find_endif_line (buffer : List String) : Nat → Option Nat
  | 0 => none
  | 1 => none
  | i + 2 =>
    if str_has_substring (buffer.getD (i + 2) "") "#endif" then some (i + 2)
    else find_endif_line buffer (i + 1)

/-- `write_method`: insert the stub's lines into the buffer at `line`
(Python `buffer[line:line] = lines`).  A non-positive `line` is replaced by
the buffer length, or by the `#endif` line when `above_endif` is truthy.
Returns the new buffer and the line the cursor jumps to
(`line + len(lines) - 2`). -/
def write_method (fn_string : String) (buffer : List String) (line : Int)
    (above_endif : Bool) : List String × Int :=
  let lineN : Nat :=
    if line ≤ 0 then
      match (if above_endif then find_endif_line buffer (buffer.length - 1) else none) with
      | some i => i
      | none => buffer.length
    else line.toNat
  let lines := py_split fn_string '\n'
  (buffer.take lineN ++ lines ++ buffer.drop lineN, (lineN : Int) + lines.length - 2)

/-- In the source, `make_fn_definition` passes `files.is_output_header` —
the bound method object itself, not the result of calling it — as
`write_method`'s `above_endif` argument.  A bound method is always truthy
in Python, so the flag is `true` whatever the file roles are. -/
def is_output_header_uncalled (_files : FileSet) : Bool := true

/-- `make_fn_definition` restricted to its buffer effect: generate the stub
and write it into the output buffer; on the duplicate-guard error the
buffer is untouched and the error is surfaced.  (The vim buffer-switching
commands are editor glue outside the model.) -/
def make_fn_definition (a : Ast) (cursor : Nat) (files : FileSet) (force : Bool)
    (buffer : List String) : List String × Option AlreadyDefinedError :=
  match generate_method_stub a cursor files force with
  | .error e => (buffer, some e)
  | .ok (function_body, line) =>
    ((write_method function_body buffer line (is_output_header_uncalled files)).1, none)

/-- The lexical-parent walk of `get_function_cursor_from_location`: from the
cursor at the location, walk `lexical_parent` links until a function-like
cursor is found; `none` when the chain is exhausted. -/
def walk_to_function (a : Ast) : Nat → Option Nat → Option Nat
  | _, none => none
  | 0, some _ => none
  | f + 1, some i =>
    match a.node? i with
    | none => none
    | some n =>
      if is_cursor_function n then some i else walk_to_function a f n.lexical_parent

/-- `get_function_cursor_from_location`: `locate` abstracts the clang
`Cursor.from_location` lookup (external AST layer); the walk outward is the
code's loop. -/
def get_function_cursor_from_location (a : Ast) (located : Option Nat) : Option Nat :=
  walk_to_function a (a.nodes.length + 1) located

/-- `get_function_cursor_on_line`: direct lookup first; on failure, the line
heuristic.  Python's `if pos:` is falsy both for `None` and for `0`, so a
heuristic result of exactly 0 is discarded and the function answers `None`
as if the heuristic had failed. -/
def get_function_cursor_on_line (a : Ast) (locate : Int → Option Nat) (col : Int)
    (line_text : String) : Option Nat :=
  match get_function_cursor_from_location a (locate col) with
  | some cursor => some cursor
  | none =>
    match find_fn_name_from_line line_text with
    | some pos =>
      if pos = 0 then none
      else get_function_cursor_from_location a (locate pos)
    | none => none

/-- The file-system and editor surroundings of the file-pairing policy:
which names are open buffers, which exist on disk, and `os.path.abspath`. -/
structure FileEnv where
  buffers : List String
  disk_files : List String
  abspath : String → String

/-- `get_buffer_with_name ... or os.path.exists ...` reduced to existence. -/
def buffer_or_disk (env : FileEnv) (name : String) : Bool :=
  env.buffers.contains name || env.disk_files.contains name

/-- `get_corresponding_file`: split on `'.'`, take the last component as the
extension and the rest as the stem.  Note the comparison `ext in extensions`
compares the dot-less last component against dotted extension strings.  The
fallback tries each extension appended to the stem against open buffers and
the disk. -/
def get_corresponding_file (env : FileEnv) (file_name : String)
    (extensions : List String) : Option String :=
  let parts := py_split file_name '.'
  let ext := parts.getLastD ""
  let stem := String.intercalate "." parts.dropLast
  if extensions.contains ext then some file_name
  else
    extensions.findSome? (fun new_ext =>
      let new_file := stem ++ new_ext
      if buffer_or_disk env new_file then some new_file else none)

/-- `get_header_file`. -/
def get_header_file (env : FileEnv) (file_name : String) : Option String :=
  get_corresponding_file env file_name [".hpp", ".hxx", ".h"]

/-- `get_source_file`. -/
def get_source_file (env : FileEnv) (file_name : String) : Option String :=
  get_corresponding_file env file_name [".cpp", ".cxx", ".c"]

/-- Python truthiness of an optional string: `None` and `''` are falsy. -/
def py_truthy_str : Option String → Bool
  | none => false
  | some s => s ≠ ""

/-- `make_fileset_for_source`: derive the header/source companions of the
edited file and choose the parse/output target — the source companion
unless it is falsy or inline generation is forced, else the header
companion. -/
def make_fileset_for_source (env : FileEnv) (source_file : String)
    (force_inline : Bool) : FileSet :=
  let file_name := env.abspath source_file
  let header_file := get_header_file env file_name
  let source_file := get_source_file env file_name
  let parse_file :=
    if py_truthy_str source_file && !force_inline then source_file else header_file
  ⟨source_file, header_file, some file_name, parse_file⟩

/-! Concrete fixtures: a header `a.h` declaring `class C \x7b void foo(); \x7d;`
with output file `a.cpp`, before and after the stub for `C::foo` has been
inserted into `a.cpp`; and a nested-class example `Outer::Inner::m`. -/

/-- The file roles for the fixtures: editing `a.h`, output `a.cpp`. -/
def files_cpp : FileSet :=
  ⟨some "a.cpp", some "a.h", some "a.h", some "a.cpp"⟩

/-- Translation unit of `a.cpp` (including `a.h`) before any insertion:
root ─ class `C` ─ method declaration `foo`. -/
def ast_before : Ast :=
  ⟨[{ kind := CKind.translationUnit, spelling := "a.cpp", displayname := "a.cpp",
      canonical := 0, children := [1] },
    { kind := CKind.classDecl, spelling := "C", displayname := "C", canonical := 1,
      loc_file := some "a.h", loc_line := 1, extent_start_line := 1,
      extent_end_line := 4, semantic_parent := some 0, lexical_parent := some 0,
      children := [2] },
    { kind := CKind.cxxMethod, spelling := "foo", displayname := "foo()",
      canonical := 2, loc_file := some "a.h", loc_line := 2, extent_start_line := 2,
      extent_end_line := 2, semantic_parent := some 1, lexical_parent := some 1,
      tokens := ["void", "foo", "(", ")", ";"], result_type_spelling := "void" }], 0⟩

/-- The same translation unit re-parsed after the stub for `C::foo` was
inserted into `a.cpp` at line 6: node 3 is the out-of-line definition — same
canonical id as the declaration, lexical parent the translation unit. -/
def ast_after : Ast :=
  ⟨[{ kind := CKind.translationUnit, spelling := "a.cpp", displayname := "a.cpp",
      canonical := 0, children := [1, 3] },
    { kind := CKind.classDecl, spelling := "C", displayname := "C", canonical := 1,
      loc_file := some "a.h", loc_line := 1, extent_start_line := 1,
      extent_end_line := 4, semantic_parent := some 0, lexical_parent := some 0,
      children := [2] },
    { kind := CKind.cxxMethod, spelling := "foo", displayname := "foo()",
      canonical := 2, loc_file := some "a.h", loc_line := 2, extent_start_line := 2,
      extent_end_line := 2, semantic_parent := some 1, lexical_parent := some 1,
      tokens := ["void", "foo", "(", ")", ";"], result_type_spelling := "void" },
    { kind := CKind.cxxMethod, spelling := "foo", displayname := "foo()",
      canonical := 2, loc_file := some "a.cpp", loc_line := 6, extent_start_line := 6,
      extent_end_line := 9, semantic_parent := some 1, lexical_parent := some 0,
      tokens := ["void", "C", "::", "foo", "(", ")"], result_type_spelling := "void" }], 0⟩

/-- Translation unit with a doubly nested class:
root ─ class `Outer` ─ class `Inner` ─ method declaration `m`. -/
def ast_nested : Ast :=
  ⟨[{ kind := CKind.translationUnit, spelling := "t.cpp", displayname := "t.cpp",
      canonical := 0, children := [1] },
    { kind := CKind.classDecl, spelling := "Outer", displayname := "Outer",
      canonical := 1, loc_file := some "t.h", loc_line := 1, extent_start_line := 1,
      extent_end_line := 8, semantic_parent := some 0, lexical_parent := some 0,
      children := [2] },
    { kind := CKind.classDecl, spelling := "Inner", displayname := "Inner",
      canonical := 2, loc_file := some "t.h", loc_line := 2, extent_start_line := 2,
      extent_end_line := 6, semantic_parent := some 1, lexical_parent := some 1,
      children := [3] },
    { kind := CKind.cxxMethod, spelling := "m", displayname := "m()", canonical := 3,
      loc_file := some "t.h", loc_line := 3, extent_start_line := 3,
      extent_end_line := 3, semantic_parent := some 2, lexical_parent := some 2,
      tokens := ["void", "m", "(", ")", ";"], result_type_spelling := "void" }], 0⟩

/-- Namespace cursor `A` (fixture for the scope-resolution claim). -/
def ns_a : Node := { kind := CKind.namespaceDecl, spelling := "A", canonical := 10 }

/-- Namespace cursor `B`. -/
def ns_b : Node := { kind := CKind.namespaceDecl, spelling := "B", canonical := 11 }

/-- Namespace cursor `C`. -/
def ns_c : Node := { kind := CKind.namespaceDecl, spelling := "C", canonical := 12 }

/-! Spec-side definitions: formalisations that follow the specification's
wording, to be compared with the source-translated functions above. -/

/-- Spec wording for the scope-resolution depth: the length of the longest
common prefix of the two chains, compared by canonical identity
index-by-index from the outermost in, stopping at the first mismatch. -/
def spec_common_prefix_len (namespaces lexical_namespaces : List Node) : Nat :=
  ((namespaces.zip lexical_namespaces).takeWhile
    (fun p => p.1.canonical == p.2.canonical)).length

/-- Amended insertion-line rule, namespace part: the line before the
innermost namespace's closing brace, unless that closing brace is on line 1
(computed line 0), in which case the end-of-file sentinel. -/
def spec_insertion_line_ns (namespaces : List Node) : Int :=
  match namespaces.getLast? with
  | some n =>
    if 2 ≤ n.extent_end_line then (n.extent_end_line : Int) - 1 else -1
  | none => -1

/-- Amended insertion-line rule: above the anchoring definition unless it
starts on line 1 (computed line 0), in which case fall through to the
namespace rule, then to the sentinel. -/
def spec_insertion_line (above_def : Option Node) (namespaces : List Node) : Int :=
  match above_def with
  | some d =>
    if 2 ≤ d.extent_start_line then (d.extent_start_line : Int) - 1
    else spec_insertion_line_ns namespaces
  | none => spec_insertion_line_ns namespaces

/-- Index of the first space character that immediately precedes a `*` or
`&`, if any. -/
def spec_first_ptr_space_idx : List Char → Option Nat
  | a :: b :: rest =>
    if a = ' ' ∧ (b = '*' ∨ b = '&') then some 0
    else (spec_first_ptr_space_idx (b :: rest)).map (· + 1)
  | _ => none

/-- Amended type-formatting rule: delete exactly the first space character
that immediately precedes a `*` or `&`, leaving all other characters (and
any later such spaces) unchanged. -/
def spec_remove_first_ptr_space (cs : List Char) : List Char :=
  match spec_first_ptr_space_idx cs with
  | some j => cs.eraseIdx j
  | none => cs

/-- Amended qualifier rule, trailing part: the `' const'`/`' noexcept'`
fragments emitted, in token order, for tokens at parenthesis depth 0
anywhere before the first `\x7b` — including `const` tokens of a
const-qualified return type before the parameter list. -/
def spec_trailing_quals (depth : Int) : List String → List String
  | [] => []
  | t :: ts =>
    if t = "\x7b" then []
    else if t = "(" then spec_trailing_quals (depth + 1) ts
    else if t = ")" then spec_trailing_quals (depth - 1) ts
    else if t = "const" ∧ depth = 0 then " const" :: spec_trailing_quals depth ts
    else if t = "noexcept" ∧ depth = 0 then " noexcept" :: spec_trailing_quals depth ts
    else if t = "constexpr" ∧ depth = 0 then spec_trailing_quals depth ts
    else spec_trailing_quals depth ts

/-- Amended qualifier rule, `constexpr` part: how many `constexpr` tokens
occur at depth 0 before the first `\x7b`; each prepends `'constexpr '` to the
header as it stands at that step. -/
def spec_constexpr_count (depth : Int) : List String → Nat
  | [] => 0
  | t :: ts =>
    if t = "\x7b" then 0
    else if t = "(" then spec_constexpr_count (depth + 1) ts
    else if t = ")" then spec_constexpr_count (depth - 1) ts
    else if t = "const" ∧ depth = 0 then spec_constexpr_count depth ts
    else if t = "noexcept" ∧ depth = 0 then spec_constexpr_count depth ts
    else if t = "constexpr" ∧ depth = 0 then spec_constexpr_count depth ts + 1
    else spec_constexpr_count depth ts

/-- The counting loop of `build_namespace_scope_resolution` computes the
longest-common-prefix length by canonical identity. -/
theorem lexical_depth_loop_eq_spec (ns lex : List Node) :
    lexical_depth_loop ns lex = spec_common_prefix_len ns lex := by
  induction ns generalizing lex with
  | nil => cases lex <;> simp [lexical_depth_loop, spec_common_prefix_len]
  | cons n ns ih =>
    cases lex with
    | nil => simp [lexical_depth_loop, spec_common_prefix_len]
    | cons l ls =>
      simp only [lexical_depth_loop, spec_common_prefix_len, List.zip_cons_cons,
        List.takeWhile_cons]
      by_cases hc : n.canonical = l.canonical
      · simp [hc, ih, spec_common_prefix_len]
      · simp [hc]

/-- The scan of `format_type_name` deletes exactly the first space before a
`*` or `&`. -/
theorem format_go_eq_spec (cs : List Char) :
    format_type_name_go cs = spec_remove_first_ptr_space cs := by
  induction cs with
  | nil => rfl
  | cons a rest ih =>
    cases rest with
    | nil => rfl
    | cons b rest2 =>
      by_cases h : a = ' ' ∧ (b = '*' ∨ b = '&')
      · simp [format_type_name_go, spec_remove_first_ptr_space,
          spec_first_ptr_space_idx, h]
      · rw [format_type_name_go, if_neg h, ih]
        simp only [spec_remove_first_ptr_space, spec_first_ptr_space_idx, if_neg h]
        cases hfi : spec_first_ptr_space_idx (b :: rest2) with
        | none => rfl
        | some j => simp [List.eraseIdx_cons_succ]

/-- The specifier scan appends its depth-0 `const`/`noexcept` fragments in
token order and prepends one `'constexpr '` per depth-0 `constexpr`
token. -/
theorem add_function_specifiers_go_eq (ts : List String) : ∀ (depth : Int)
    (header : List String),
    add_function_specifiers_go depth header ts =
      List.replicate (spec_constexpr_count depth ts) "constexpr " ++ header ++
        spec_trailing_quals depth ts := by
  induction ts with
  | nil =>
    intro depth header
    simp [add_function_specifiers_go, spec_constexpr_count, spec_trailing_quals]
  | cons t ts ih =>
    intro depth header
    simp only [add_function_specifiers_go, spec_constexpr_count, spec_trailing_quals]
    split_ifs with h1 h2 h3 h4 h5 h6
    · simp
    · exact ih _ _
    · exact ih _ _
    · rw [ih]
      simp
    · rw [ih]
      simp
    · rw [ih, List.replicate_succ']
      simp
    · exact ih _ _

/-- A successful `get_corresponding_file` lookup never returns the empty
string (given non-empty extension strings). -/
theorem get_corresponding_file_ne_empty (env : FileEnv) (n : String)
    (exts : List String) (hne : ∀ e ∈ exts, e ≠ "") :
    ∀ s, get_corresponding_file env n exts = some s → s ≠ "" := by
  intro s hs hempty
  subst hempty
  unfold get_corresponding_file at hs
  by_cases hc : exts.contains ((py_split n '.').getLastD "")
  · rw [if_pos hc] at hs
    injection hs with hn
    subst hn
    have h0 : (py_split "" '.').getLastD "" = "" := by decide
    rw [h0] at hc
    exact hne "" (by simpa using hc) rfl
  · rw [if_neg hc] at hs
    obtain ⟨e, he, hfe⟩ := List.exists_of_findSome?_eq_some hs
    by_cases hb : buffer_or_disk env (String.intercalate "." (py_split n '.').dropLast ++ e)
    · rw [if_pos hb] at hfe
      injection hfe with hfe
      have hd := congrArg String.data hfe
      rw [String.data_append] at hd
      have he' : e.data = [] := by
        cases List.append_eq_nil.mp hd with
        | intro h1 h2 => exact h2
      exact hne e he (by cases e; simp_all)
    · rw [if_neg hb] at hfe
      exact Option.noConfusion hfe

/-- `py_truthy_str` on a `get_source_file` result agrees with `isSome`. -/
theorem py_truthy_get_source (env : FileEnv) (n : String) :
    py_truthy_str (get_source_file env n) = (get_source_file env n).isSome := by
  cases hs : get_source_file env n with
  | none => rfl
  | some s =>
    have hne := get_corresponding_file_ne_empty env n [".cpp", ".cxx", ".c"]
      (by decide) s hs
    simp [py_truthy_str, hne]

/-! The claims. -/

/-- Claim C1: whenever the output file already holds a matching out-of-line
definition for the declaration — same spelling, matched by canonical
identity, lexical parent differing from the declaration's semantic parent,
which is exactly what `find_defined_functions` collects and
`get_definition_for_function` matches — generation with `force = false`
fails with the already-defined error carrying the existing definition's
file and line, returns no stub, and leaves any buffer untouched. -/
theorem c1_duplicate_guard (a : Ast) (cursor : Nat) (files : FileSet) (d : Nat)
    (h : get_definition_for_function a (find_defined_functions a files.output cursor)
      (a.nodeD cursor) = some d) :
    generate_method_stub a cursor files false =
      .error ⟨(a.nodeD cursor).displayname, (a.nodeD d).loc_file, (a.nodeD d).loc_line⟩ ∧
    ∀ buffer, make_fn_definition a cursor files false buffer =
      (buffer, some ⟨(a.nodeD cursor).displayname, (a.nodeD d).loc_file,
        (a.nodeD d).loc_line⟩) := by
  have hg : generate_method_stub a cursor files false =
      .error ⟨(a.nodeD cursor).displayname, (a.nodeD d).loc_file, (a.nodeD d).loc_line⟩ := by
    unfold generate_method_stub
    simp only [h]
  exact ⟨hg, fun buffer => by simp only [make_fn_definition, hg]⟩

/-- Witness for C1, also the two-invocation scenario of the claim: on
`ast_before` (no definition of `C::foo` in `a.cpp` yet) the first
invocation succeeds and produces the stub; on `ast_after` (the re-parse
after that stub was inserted at line 6 of `a.cpp`) the second invocation
fails with the error referencing the just-inserted location, and the buffer
is unchanged. -/
theorem c1_duplicate_guard_witness :
    generate_method_stub ast_before 2 files_cpp false =
      .ok ("void C::foo()\n\x7b\n \n\x7d\n ", -1) ∧
    generate_method_stub ast_after 2 files_cpp false =
      .error ⟨"foo()", some "a.cpp", 6⟩ ∧
    make_fn_definition ast_after 2 files_cpp false ["int q;"] =
      (["int q;"], some ⟨"foo()", some "a.cpp", 6⟩) :=
  ⟨rfl, (c1_duplicate_guard ast_after 2 files_cpp 3 rfl).1,
    (c1_duplicate_guard ast_after 2 files_cpp 3 rfl).2 ["int q;"]⟩

/-- Claim C2: the synthesized namespace qualification is exactly the suffix
of the declaration's namespace chain beyond the longest common prefix with
the lexical chain, compared by canonical identity index-by-index from the
outermost in, stopping at the first mismatch; in particular a declaration
in `A::B::C` with the insertion point lexically inside `A::B` is qualified
`C` (to which the caller appends `::`), never `A::B::C`. -/
theorem c2_namespace_suffix :
    (∀ namespaces lexical_namespaces : List Node,
      build_namespace_scope_resolution namespaces lexical_namespaces =
        String.intercalate "::"
          ((namespaces.drop
            (spec_common_prefix_len namespaces lexical_namespaces)).map Node.spelling)) ∧
    build_namespace_scope_resolution [ns_a, ns_b, ns_c] [ns_a, ns_b] = "C" ∧
    build_namespace_scope_resolution [ns_a, ns_b, ns_c] [ns_a, ns_b] ≠ "A::B::C" := by
  refine ⟨fun ns lex => ?_, rfl, by decide⟩
  rw [build_namespace_scope_resolution, lexical_depth_loop_eq_spec]

/-- Counterexample to claim C3: with an anchoring definition that starts on
line 1 and no enclosing namespace, the code returns the end-of-file
sentinel `-1`, not the insert-above-the-definition line `1 - 1 = 0` the
claim requires for every start line. -/
theorem c3_line_one_counterexample :
    get_output_location (some { extent_start_line := 1 }) [] = -1 ∧
    (-1 : Int) ≠ (1 : Int) - 1 :=
  ⟨rfl, by decide⟩

/-- Claim C3 as amended: the insertion line follows the priority
(a) above the next declaration's definition, (b) before the innermost
namespace's closing brace, (c) end-of-file sentinel — except that a branch
whose computed line is 0 (a definition starting on line 1, or a namespace
closing on line 1) is skipped and evaluation falls through to the next
branch. -/
theorem c3_insertion_priority_amended (above_def : Option Node)
    (namespaces : List Node)
    (h1 : ∀ d, above_def = some d → 1 ≤ d.extent_start_line)
    (h2 : ∀ n, namespaces.getLast? = some n → 1 ≤ n.extent_end_line) :
    get_output_location above_def namespaces =
      spec_insertion_line above_def namespaces := by
  cases above_def with
  | none =>
    cases hl : namespaces.getLast? with
    | none =>
      simp [get_output_location, spec_insertion_line, spec_insertion_line_ns, hl]
    | some n =>
      have hn := h2 n hl
      simp only [get_output_location, spec_insertion_line, spec_insertion_line_ns, hl]
      split_ifs <;> omega
  | some d =>
    have hd := h1 d rfl
    cases hl : namespaces.getLast? with
    | none =>
      simp only [get_output_location, spec_insertion_line, spec_insertion_line_ns, hl]
      split_ifs <;> omega
    | some n =>
      have hn := h2 n hl
      simp only [get_output_location, spec_insertion_line, spec_insertion_line_ns, hl]
      split_ifs <;> omega

/-- Witness for the amended C3: an anchor starting on line 1 together with
a namespace closing on line 20 falls through to the namespace rule,
inserting at line 19. -/
theorem c3_insertion_priority_amended_witness :
    get_output_location (some { extent_start_line := 1 })
        [{ extent_end_line := 20 }] =
      spec_insertion_line (some { extent_start_line := 1 })
        [{ extent_end_line := 20 }] ∧
    spec_insertion_line (some { extent_start_line := 1 })
        [{ extent_end_line := 20 }] = 19 :=
  ⟨c3_insertion_priority_amended _ _
      (fun d hd => by cases hd; decide)
      (fun n hn => by cases hn; decide),
    rfl⟩

/-- Counterexample to claim C4: the fragment "title-casing" is Python
`str.title`, which lowercases every letter after the first of an alphabetic
run, so `m_userName` derives `Username` (getter `getUsername`), not
`UserName`; and a field with no recognized convention derives the empty
name — `plain` yields `""` (getter `get`), not `Plain`. -/
theorem c4_title_case_counterexample :
    get_method_name_from_field "m_userName" = "Username" ∧
    ("Username" : String) ≠ "UserName" ∧
    get_method_name_from_field "plain" = "" ∧
    ("" : String) ≠ "Plain" :=
  ⟨rfl, by decide, rfl, by decide⟩

/-- Claim C4 as amended: derivation strips exactly one of a leading `m_`, a
leading `_`, or a trailing `_` (in that priority order), splits the
remainder on `_`, Python-title-cases each fragment, concatenates, and
title-cases the result again; when no convention matches the remainder is
the empty string, not the original name.  Concretely: `m_userName` gives
getter name `getUsername`, `_count` gives `getCount`, `total_` gives
`getTotal`, and `plain` gives the bare `get`. -/
theorem c4_accessor_naming_amended :
    "get" ++ get_method_name_from_field "m_userName" = "getUsername" ∧
    "get" ++ get_method_name_from_field "_count" = "getCount" ∧
    "get" ++ get_method_name_from_field "total_" = "getTotal" ∧
    "get" ++ get_method_name_from_field "plain" = "get" ∧
    make_fn_decl { spelling := "m_userName", type_spelling := "int" }
      AccessorKind.getter = "int getUsername() const" ∧
    make_fn_decl { spelling := "plain", type_spelling := "int" }
      AccessorKind.getter = "int get() const" :=
  ⟨rfl, rfl, rfl, rfl, rfl, rfl⟩

/-- Claim C5 (code bug): for a method `m` declared in class `Inner` nested
inside class `Outer`, `get_member_class_name` appends the class spellings
while walking outward and never reverses the list, so the synthesized
signature qualifies inner-to-outer — `void Inner::Outer::m()` — instead of
the valid outer-to-inner `void Outer::Inner::m()` the claim (and C++)
requires. -/
theorem c5_nested_class_scope_order :
    get_member_class_name ast_nested (ast_nested.nodeD 3) = some "Inner::Outer" ∧
    make_function_header ast_nested 3 false "" = "void Inner::Outer::m()" ∧
    ("void Inner::Outer::m()" : String) ≠ "void Outer::Inner::m()" :=
  ⟨rfl, rfl, by decide⟩

/-- Counterexample to claim C6: `format_type_name` breaks out of its loop
after the first removal, so a spelling with two spaces before `*` keeps the
second one: `int * *` becomes `int* *`, not `int**`. -/
theorem c6_two_spaces_counterexample :
    format_type_name "int * *" = "int* *" ∧
    ("int* *" : String) ≠ "int**" :=
  ⟨rfl, by decide⟩

/-- Claim C6 as amended: exactly the first space character immediately
preceding a `*` or `&` is removed (at most one removal per call); all other
characters, including any later such spaces, are unchanged. -/
theorem c6_format_type_amended (s : String) :
    format_type_name s = ⟨spec_remove_first_ptr_space s.data⟩ := by
  rw [format_type_name, format_go_eq_spec]

/-- Claim C7 (code bug): `make_fn_definition` passes the bound method
`files.is_output_header` — without calling it — as `write_method`'s
`above_endif` flag; a bound method is always truthy, so the `#endif` search
runs for source outputs too.  Here the output `a.cpp` is a source file
(`is_output_header` is `false`), yet the sentinel-line insertion lands
above the buffer's `#endif` line instead of appending at the end. -/
theorem c7_source_endif_insertion :
    files_cpp.is_output_header = false ∧
    make_fn_definition ast_before 2 files_cpp false
        ["int q;", "a", "b", "#endif", "c"] =
      (["int q;", "a", "b", "void C::foo()", "\x7b", " ", "\x7d", " ", "#endif", "c"],
        none) ∧
    (["int q;", "a", "b", "void C::foo()", "\x7b", " ", "\x7d", " ", "#endif", "c"] :
        List String) ≠
      ["int q;", "a", "b", "#endif", "c"] ++ ["void C::foo()", "\x7b", " ", "\x7d", " "] :=
  ⟨rfl, rfl, by decide⟩

/-- Counterexample to claim C8: a `const` token at depth 0 *before* the
parameter list — here from a const-qualified return type — is emitted as a
trailing `' const'` qualifier, which the claim says cannot happen. -/
theorem c8_leading_const_counterexample :
    add_function_specifiers { tokens := ["const", "int", "f", "(", ")", ";"] }
      ["f()"] = ["f()", " const"] ∧
    (["f()", " const"] : List String) ≠ ["f()"] :=
  ⟨rfl, by decide⟩

/-- Claim C8 as amended: the scan stops at the first `\x7b` and tracks
parenthesis depth, but emits `' const'`/`' noexcept'` for depth-0 tokens
anywhere before the body — before or after the parameter list — appending
them in token order, and prepends one `'constexpr '` per depth-0
`constexpr` token to the header as it stands at that step (the `inline`
marker and template headers are prepended before it afterwards). -/
theorem c8_specifier_scan_amended (fn_cursor : Node) (header : List String) :
    add_function_specifiers fn_cursor header =
      List.replicate (spec_constexpr_count 0 fn_cursor.tokens) "constexpr " ++
        header ++ spec_trailing_quals 0 fn_cursor.tokens := by
  rw [add_function_specifiers, add_function_specifiers_go_eq]

/-- Counterexample to claim C9: editing `/w/foo.cpp` when only `/w/foo.h`
exists (the edited file neither on disk nor in a buffer): the input has a
source extension and inline generation is not forced, yet the source
candidate does not resolve — the `ext in extensions` comparison matches the
dot-less `cpp` against dotted candidates and never fires — so `output` is
the header, not the source. -/
theorem c9_extension_counterexample :
    (make_fileset_for_source ⟨[], ["/w/foo.h"], id⟩ "/w/foo.cpp" false).source = none ∧
    (make_fileset_for_source ⟨[], ["/w/foo.h"], id⟩ "/w/foo.cpp" false).output =
      some "/w/foo.h" ∧
    py_ends_with "/w/foo.cpp" ".cpp" = true ∧
    (make_fileset_for_source ⟨[], ["/w/foo.h"], id⟩ "/w/foo.cpp" false).output ≠
      (make_fileset_for_source ⟨[], ["/w/foo.h"], id⟩ "/w/foo.cpp" false).source :=
  ⟨rfl, rfl, rfl, by decide⟩

/-- Claim C9 as amended: the `output` field is always one of the `source`
and `header` fields, and equals `source` exactly when the source-companion
lookup succeeded (a source-extension candidate that is an open buffer or on
disk — the input's own extension never matches the dotted candidates) and
inline generation is not forced, else `header`. -/
theorem c9_output_choice_amended (env : FileEnv) (name : String)
    (force_inline : Bool) :
    ((make_fileset_for_source env name force_inline).output =
        (make_fileset_for_source env name force_inline).source ∨
      (make_fileset_for_source env name force_inline).output =
        (make_fileset_for_source env name force_inline).header) ∧
    (make_fileset_for_source env name force_inline).output =
      (if (make_fileset_for_source env name force_inline).source.isSome &&
          !force_inline
        then (make_fileset_for_source env name force_inline).source
        else (make_fileset_for_source env name force_inline).header) := by
  constructor
  · simp only [make_fileset_for_source]
    by_cases h : py_truthy_str (get_source_file env (env.abspath name)) && !force_inline
    · left; simp [h]
    · right; simp [h]
  · simp only [make_fileset_for_source, py_truthy_get_source]

/-- Claim C10: when the direct AST lookup finds no function-bearing
ancestor and the balanced-parenthesis heuristic computes a name-end column
of 0 (a line whose matched `(` is at string index 1), Python's `if pos:`
is falsy, the heuristic result is discarded, and resolution reports no
function found. -/
theorem c10_heuristic_zero_discard (a : Ast) (locate : Int → Option Nat)
    (col : Int) (line_text : String)
    (h1 : get_function_cursor_from_location a (locate col) = none)
    (h2 : find_fn_name_from_line line_text = some 0) :
    get_function_cursor_on_line a locate col line_text = none := by
  simp only [get_function_cursor_on_line, h1, h2]
  rfl

/-- Witness for C10: the one-character function name in `f()` makes the
heuristic answer column 0, and resolution yields `none`. -/
theorem c10_heuristic_zero_discard_witness :
    find_fn_name_from_line "f()" = some 0 ∧
    get_function_cursor_from_location ⟨[], 0⟩ ((fun _ => none) (1 : Int)) = none ∧
    get_function_cursor_on_line ⟨[], 0⟩ (fun _ => none) 1 "f()" = none :=
  ⟨rfl, rfl, c10_heuristic_zero_discard ⟨[], 0⟩ (fun _ => none) 1 "f()" rfl rfl⟩
